import Mathlib

/-!
Verification of the shape-inference engine of the convolutional / core
layer library (keras/layers/convolutional.py, keras/layers/core.py).

Shapes are embedded as lists of optional integers (`none` = unknown /
dynamic dimension, mirroring Python's `None`).  Methods that can raise
are embedded as `Except String`-valued functions; methods containing no
`raise` are total functions.  The helpers `conv_output_length`,
`deconv_length`, `normalize_tuple` (keras/utils/conv_utils.py) and
`transpose_shape` (keras/utils/generic_utils.py) are not part of the
source tree and are modelled from the specification.
-/

/-- A single tensor dimension: `none` is Python's `None` (unknown). -/
abbrev Dim := Option Int

/-- A tensor shape: ordered list of optional dimensions. -/
abbrev KShape := List Dim

/-- Data layout convention (`data_format` strings in the source). -/
inductive DataFormat where
  | channelsFirst
  | channelsLast
deriving DecidableEq, Repr

/-- Padding mode (`padding` strings in the source). -/
inductive Padding where
  | valid
  | same
  | causal
deriving DecidableEq, Repr

/-- Modelled from the spec: the shared transposition helper
`transpose_shape` (keras/utils/generic_utils.py, absent from src).
Shapes are computed in canonical order (batch, spatial..., channel);
channels-first moves the trailing channel entry to position 1,
channels-last leaves the canonical order unchanged. -/
def transpose_shape {α : Type} (fmt : DataFormat) (shape : List α) : List α :=
  match fmt with
  | .channelsLast => shape
  | .channelsFirst =>
    match shape with
    | [] => []
    | b :: rest =>
      match rest.reverse with
      | [] => [b]
      | c :: restRev => b :: c :: restRev.reverse

/-- Modelled from the spec: `conv_output_length`
(keras/utils/conv_utils.py, absent from src).  `none` propagates;
effective kernel extent is dilated; VALID uses
`floor((input - dilated)/stride) + 1`, SAME and CAUSAL use
`ceil(input/stride)`; the result is clamped to be non-negative. -/
def conv_output_length (input_length : Dim) (filter_size : Int)
    (padding : Padding) (stride : Int) (dilation : Int) : Dim :=
  match input_length with
  | none => none
  | some l =>
    let dilated := filter_size + (filter_size - 1) * (dilation - 1)
    let out : Int :=
      match padding with
      | .valid => (l - dilated).fdiv stride + 1
      | .same => (l + stride - 1).fdiv stride
      | .causal => (l + stride - 1).fdiv stride
    some (max out 0)

/-- Modelled from the spec: `deconv_length`
(keras/utils/conv_utils.py, absent from src).  `none` propagates.
Without explicit output padding: VALID gives
`input*stride + max(dilated - stride, 0)`, SAME gives `input*stride`.
With explicit output padding `op`: `(input-1)*stride + dilated - 2*pad + op`
with `pad = 0` for VALID and `pad = dilated // 2` for SAME. -/
def deconv_length (dim_size : Dim) (stride_size : Int) (kernel_size : Int)
    (padding : Padding) (output_padding : Option Int) (dilation : Int) : Dim :=
  match dim_size with
  | none => none
  | some l =>
    let dilated := kernel_size + (kernel_size - 1) * (dilation - 1)
    match output_padding with
    | none =>
      match padding with
      | .valid => some (l * stride_size + max (dilated - stride_size) 0)
      | _ => some (l * stride_size)
    | some op =>
      let pad : Int :=
        match padding with
        | .valid => 0
        | _ => dilated.fdiv 2
      some ((l - 1) * stride_size + dilated - 2 * pad + op)

/-- The channel entry of an input shape: index 1 for channels-first,
the last entry for channels-last (`input_shape[-1]` in the source).
The outer `Option` is `none` when the index does not exist (an
`IndexError` in Python, also a failure). -/
def channel_dim (fmt : DataFormat) (input_shape : KShape) : Option Dim :=
  match fmt with
  | .channelsFirst => input_shape.get? 1
  | .channelsLast => input_shape.getLast?

/-- Result of a successful `build`: the allocated weights
(name, shape requested through `add_weight`, in request order) and the
`built` flag set at the end of `build`. -/
structure BuildOutcome where
  weights : List (String × List Int)
  built : Bool
deriving DecidableEq, Repr

/-- Whether an `Except` computation succeeded (no exception raised). -/
def exOk {α : Type} (e : Except String α) : Bool :=
  match e with
  | .ok _ => true
  | .error _ => false

/-- Embedding of `_Conv.build` (convolutional.py lines 190-217): raise if
the channel dimension is `None`, then allocate
`kernel` of shape `kernel_size + (input_dim, filters)` and, when
`use_bias`, `bias` of shape `(filters,)`; finally set `built`.
The `raise` precedes every `add_weight` call, so an error allocates
nothing. -/
def Conv_build (kernel_size : List Int) (filters : Int) (use_bias : Bool)
    (fmt : DataFormat) (input_shape : KShape) : Except String BuildOutcome :=
  match channel_dim fmt input_shape with
  | none => .error "The channel dimension of the inputs should be defined. Found None."
  | some none => .error "The channel dimension of the inputs should be defined. Found None."
  | some (some input_dim) =>
    .ok { weights := ("kernel", kernel_size ++ [input_dim, filters]) ::
            (if use_bias then [("bias", [filters])] else []),
          built := true }

/-- The per-axis loop of `_Conv.compute_output_shape`
(convolutional.py lines 260-268): apply `conv_output_length` to each
spatial dimension with the matching kernel/stride/dilation entry. -/
def conv_new_space (space : KShape) (kernel_size strides dilation_rate : List Int)
    (padding : Padding) : KShape :=
  match space, kernel_size, strides, dilation_rate with
  | d :: space', k :: ks, s :: ss, r :: rs =>
    conv_output_length d k padding s r :: conv_new_space space' ks ss rs padding
  | _, _, _, _ => []

/-- Embedding of `_Conv.compute_output_shape` (convolutional.py lines
255-272): channels-last takes `input_shape[1:-1]` as space and returns
`(batch,) + new_space + (filters,)`; channels-first takes
`input_shape[2:]` and returns `(batch, filters) + new_space`. -/
def Conv_compute_output_shape (kernel_size strides dilation_rate : List Int)
    (padding : Padding) (filters : Int) (fmt : DataFormat)
    (input_shape : KShape) : KShape :=
  match fmt with
  | .channelsLast =>
    let space := (input_shape.drop 1).dropLast
    input_shape.take 1 ++
      conv_new_space space kernel_size strides dilation_rate padding ++
      [some filters]
  | .channelsFirst =>
    let space := input_shape.drop 2
    input_shape.take 1 ++ [some filters] ++
      conv_new_space space kernel_size strides dilation_rate padding

/-- Embedding of the `output_padding` validation performed by
`Conv2DTranspose.__init__` (convolutional.py lines 842-850) and,
identically, `Conv3DTranspose.__init__` (lines 1120-1128): when
`output_padding` is not `None`, raise as soon as some
`out_pad >= stride`; when it is `None` the loop is skipped entirely. -/
def ConvTranspose_check_output_padding (strides : List Int)
    (output_padding : Option (List Int)) : Except String Unit :=
  match output_padding with
  | none => .ok ()
  | some op =>
    if (strides.zip op).any (fun p => decide (p.2 ≥ p.1)) then
      .error "Stride must be greater than output padding"
    else .ok ()

/-- Embedding of `Conv2DTranspose.build` (convolutional.py lines
852-882): raise if the input rank is not 4, then raise if the channel
dimension is `None`, then allocate `kernel` of shape
`kernel_size + (filters, input_dim)` and, when `use_bias`, `bias` of
shape `(filters,)`.  Both `raise`s precede every `add_weight` call. -/
def Conv2DTranspose_build (kernel_size : Int × Int) (filters : Int)
    (use_bias : Bool) (fmt : DataFormat) (input_shape : KShape) :
    Except String BuildOutcome :=
  if input_shape.length ≠ 4 then
    .error "Inputs should have rank 4"
  else
    match channel_dim fmt input_shape with
    | none => .error "The channel dimension of the inputs should be defined. Found None."
    | some none => .error "The channel dimension of the inputs should be defined. Found None."
    | some (some input_dim) =>
      .ok { weights := ("kernel", [kernel_size.1, kernel_size.2, filters, input_dim]) ::
              (if use_bias then [("bias", [filters])] else []),
            built := true }

/-- Embedding of `Conv3DTranspose.build` (convolutional.py lines
1130-1160): identical to the 2D case with rank 5 and a
three-dimensional kernel. -/
def Conv3DTranspose_build (kernel_size : Int × Int × Int) (filters : Int)
    (use_bias : Bool) (fmt : DataFormat) (input_shape : KShape) :
    Except String BuildOutcome :=
  if input_shape.length ≠ 5 then
    .error "Inputs should have rank 5"
  else
    match channel_dim fmt input_shape with
    | none => .error "The channel dimension of the inputs should be defined. Found None."
    | some none => .error "The channel dimension of the inputs should be defined. Found None."
    | some (some input_dim) =>
      .ok { weights := ("kernel",
              [kernel_size.1, kernel_size.2.1, kernel_size.2.2, filters, input_dim]) ::
              (if use_bias then [("bias", [filters])] else []),
            built := true }

/-- Embedding of `Conv2DTranspose.compute_output_shape` (convolutional.py
lines 935-962): copy the input shape, set the channel axis to `filters`
and each spatial axis to `deconv_length` of its previous value.  The
function contains no validation of `output_padding`. -/
def Conv2DTranspose_compute_output_shape (kernel_size strides : Int × Int)
    (padding : Padding) (output_padding : Option (Int × Int))
    (dilation_rate : Int × Int) (filters : Int) (fmt : DataFormat)
    (input_shape : KShape) : KShape :=
  let out_pads : Option Int × Option Int :=
    match output_padding with
    | none => (none, none)
    | some (a, b) => (some a, some b)
  match fmt with
  | .channelsFirst =>
    let os1 := input_shape.set 1 (some filters)
    let os2 := os1.set 2 (deconv_length (os1.getD 2 none) strides.1 kernel_size.1
      padding out_pads.1 dilation_rate.1)
    os2.set 3 (deconv_length (os2.getD 3 none) strides.2 kernel_size.2
      padding out_pads.2 dilation_rate.2)
  | .channelsLast =>
    let os1 := input_shape.set 3 (some filters)
    let os2 := os1.set 1 (deconv_length (os1.getD 1 none) strides.1 kernel_size.1
      padding out_pads.1 dilation_rate.1)
    os2.set 2 (deconv_length (os2.getD 2 none) strides.2 kernel_size.2
      padding out_pads.2 dilation_rate.2)

/-- Embedding of `DepthwiseConv2D.build` (convolutional.py lines
1888-1923): raise if the input rank is below 4, then raise if the channel
dimension (axis 1 or axis 3) is `None`, then allocate `depthwise_kernel`
of shape `(kh, kw, input_dim, depth_multiplier)` and, when `use_bias`,
`bias` of shape `(input_dim * depth_multiplier,)`.  No `kernel`,
`pointwise_kernel` or filters-sized weight is requested. -/
def DepthwiseConv2D_build (kernel_size : Int × Int) (depth_multiplier : Int)
    (use_bias : Bool) (fmt : DataFormat) (input_shape : KShape) :
    Except String BuildOutcome :=
  if input_shape.length < 4 then
    .error "Inputs to DepthwiseConv2D should have rank 4."
  else
    let channel_axis : Nat :=
      match fmt with
      | .channelsFirst => 1
      | .channelsLast => 3
    match input_shape.getD channel_axis none with
    | none => .error "The channel dimension of the inputs to DepthwiseConv2D should be defined. Found None."
    | some input_dim =>
      .ok { weights := ("depthwise_kernel",
              [kernel_size.1, kernel_size.2, input_dim, depth_multiplier]) ::
              (if use_bias then [("bias", [input_dim * depth_multiplier])] else []),
            built := true }

/-- The `filters` attribute of a `DepthwiseConv2D` instance:
`DepthwiseConv2D.__init__` (convolutional.py line 1870) always passes
`filters=None` to its superclass constructor. -/
def DepthwiseConv2D_filters : Option Int := none

/-- Embedding of `DepthwiseConv2D.compute_output_shape` (convolutional.py
lines 1945-1964): the source indexes `input_shape[3]` (channels-last) or
`input_shape[1]` (channels-first), so it is defined on rank-4 shapes
(anything else is an `IndexError` in Python, represented by `[]`). -/
def DepthwiseConv2D_compute_output_shape
    (kernel_size strides dilation_rate : Int × Int) (padding : Padding)
    (depth_multiplier : Int) (fmt : DataFormat) (input_shape : KShape) : KShape :=
  match fmt, input_shape with
  | .channelsLast, [b, r, c, ch] =>
    [b,
     conv_output_length r kernel_size.1 padding strides.1 dilation_rate.1,
     conv_output_length c kernel_size.2 padding strides.2 dilation_rate.2,
     ch.map (fun v => v * depth_multiplier)]
  | .channelsFirst, [b, ch, r, c] =>
    [b,
     ch.map (fun v => v * depth_multiplier),
     conv_output_length r kernel_size.1 padding strides.1 dilation_rate.1,
     conv_output_length c kernel_size.2 padding strides.2 dilation_rate.2]
  | _, _ => []

/-- Embedding of `_UpSampling.compute_output_shape` (convolutional.py
lines 2008-2018): build the per-axis factor list `(1,) + size + (1,)` in
canonical order, transpose it into the data format, and multiply each
known input dimension by its factor (`None` dimensions are left as
`None`). -/
def UpSampling_compute_output_shape (size : List Int) (fmt : DataFormat)
    (input_shape : KShape) : KShape :=
  let size_all_dims := transpose_shape fmt ((1 : Int) :: (size ++ [1]))
  List.zipWith (fun d s => d.map (fun v => v * s)) input_shape size_all_dims

/-- Embedding of `_ZeroPadding.compute_output_shape` (convolutional.py
lines 2188-2198): build the per-axis pair list `((0,0),) + padding +
((0,0),)` in canonical order, transpose it into the data format, and add
the sum of each (before, after) pair to each known input dimension. -/
def ZeroPadding_compute_output_shape (padding : List (Int × Int))
    (fmt : DataFormat) (input_shape : KShape) : KShape :=
  let padding_all_dims := transpose_shape fmt (((0, 0) : Int × Int) :: (padding ++ [(0, 0)]))
  List.zipWith (fun d p => d.map (fun v => v + (p.1 + p.2))) input_shape padding_all_dims

/-- Embedding of `_Cropping.compute_output_shape` (convolutional.py lines
2749-2759): same structure as zero padding with subtraction.  The source
contains no check and no `raise`: the subtraction result is returned as
is, even when it is negative, so the embedding is a total function. -/
def Cropping_compute_output_shape (cropping : List (Int × Int))
    (fmt : DataFormat) (input_shape : KShape) : KShape :=
  let cropping_all_dims := transpose_shape fmt (((0, 0) : Int × Int) :: (cropping ++ [(0, 0)]))
  List.zipWith (fun d p => d.map (fun v => v - (p.1 + p.2))) input_shape cropping_all_dims

/-- Argument forms accepted by `normalize_tuple`: a bare integer or a
sequence of integers. -/
inductive PadArg where
  | int (v : Int)
  | tuple (l : List Int)
deriving DecidableEq, Repr

/-- Modelled from the spec: `normalize_tuple`
(keras/utils/conv_utils.py, absent from src).  A single integer is
broadcast to a tuple of length `n`; a sequence must have length `n`
(element integrality is enforced by the embedding's types). -/
def normalize_tuple (value : PadArg) (n : Nat) : Except String (List Int) :=
  match value with
  | .int v => .ok (List.replicate n v)
  | .tuple l => if l.length = n then .ok l else .error "value should have length n"

/-- Argument forms accepted by `Cropping2D.__init__`: a bare integer or
a sequence of per-axis specifications. -/
inductive Cropping2DArg where
  | int (v : Int)
  | seq (l : List PadArg)
deriving DecidableEq, Repr

/-- Embedding of `Cropping2D.__init__` (convolutional.py lines
2855-2880): an integer broadcasts to symmetric cropping on both axes; a
sequence must have two entries, each normalized to a (before, after)
pair via `normalize_tuple`; the normalized pairs are stored without any
magnitude check. -/
def Cropping2D_init (cropping : Cropping2DArg) :
    Except String (List (Int × Int)) :=
  match cropping with
  | .int c => .ok [(c, c), (c, c)]
  | .seq l =>
    if l.length ≠ 2 then .error "cropping should have two elements."
    else do
      let hc ← normalize_tuple (l.getD 0 (.int 0)) 2
      let wc ← normalize_tuple (l.getD 1 (.int 0)) 2
      .ok [(hc.getD 0 0, hc.getD 1 0), (wc.getD 0 0, wc.getD 1 0)]

/-- The index-and-accumulate loop of `Reshape._fix_unknown_dimension`
(core.py lines 416-424): walk the target shape, recording the index of
the first negative entry, raising on a second negative entry, and
multiplying the non-negative entries into `known`. -/
def Reshape_scan_dims (l : List Int) (idx : Nat) (known : Int)
    (unknown : Option Nat) : Except String (Int × Option Nat) :=
  match l with
  | [] => .ok (known, unknown)
  | d :: rest =>
    if d < 0 then
      match unknown with
      | none => Reshape_scan_dims rest (idx + 1) known (some idx)
      | some _ => .error "Can only specify one unknown dimension."
    else
      Reshape_scan_dims rest (idx + 1) (known * d) unknown

/-- Embedding of `Reshape._fix_unknown_dimension` (core.py lines
395-434): scan the target shape, compute the input element count, then
either substitute the unknown entry with `original // known` (raising
when `known == 0` or `original % known != 0`) or require
`original == known`. -/
def Reshape_fix_unknown_dimension (input_shape output_shape : List Int) :
    Except String (List Int) := do
  let (known, unknown) ← Reshape_scan_dims output_shape 0 1 none
  let original := input_shape.prod
  match unknown with
  | some idx =>
    if known == 0 || original % known != 0 then
      .error "total size of new array must be unchanged"
    else
      .ok (output_shape.set idx (original / known))
  | none =>
    if original != known then
      .error "total size of new array must be unchanged"
    else
      .ok output_shape

/-- Embedding of `Reshape.compute_output_shape` (core.py lines 436-444):
when some non-batch input dimension is `None`, return the target shape
with `-1` entries replaced by `None` (no error possible); otherwise
prepend the batch dimension to the fixed-up target shape. -/
def Reshape_compute_output_shape (target_shape : List Int)
    (input_shape : KShape) : Except String KShape :=
  if (input_shape.drop 1).contains none then
    .ok (input_shape.take 1 ++
      target_shape.map (fun s => if s = -1 then none else some s))
  else do
    let fixed ← Reshape_fix_unknown_dimension
      ((input_shape.drop 1).filterMap id) target_shape
    .ok (input_shape.take 1 ++ fixed.map some)

/-- Python truthiness of a dimension, as used by `all(input_shape[1:])`:
`None` and `0` are falsy, every other integer is truthy. -/
def truthy (d : Dim) : Bool :=
  match d with
  | none => false
  | some v => v != 0

/-- Embedding of `Flatten.compute_output_shape` (core.py lines 582-590):
raise when any non-batch dimension is falsy (`None` or `0`), otherwise
return the batch dimension followed by the product of the non-batch
dimensions. -/
def Flatten_compute_output_shape (input_shape : KShape) :
    Except String KShape :=
  if (input_shape.drop 1).all truthy then
    .ok (input_shape.take 1 ++ [some ((input_shape.drop 1).filterMap id).prod])
  else
    .error "The shape of the input to Flatten is not fully defined"


/-! ## Helper lemmas -/

theorem zipWith_get?_eq {α β γ : Type} (f : α → β → γ) :
    ∀ (l1 : List α) (l2 : List β) (i : Nat) (a : α) (b : β),
    l1.get? i = some a → l2.get? i = some b →
    (List.zipWith f l1 l2).get? i = some (f a b) := by
  intro l1
  induction l1 with
  | nil => intro l2 i a b h1 _; simp at h1
  | cons x xs ih =>
    intro l2 i a b h1 h2
    cases l2 with
    | nil => simp at h2
    | cons y ys =>
      cases i with
      | zero =>
        simp only [List.get?] at h1 h2
        cases h1; cases h2
        rfl
      | succ n =>
        simp only [List.get?] at h1 h2 ⊢
        exact ih ys n a b h1 h2

theorem transpose_shape_channelsFirst_concat {α : Type} (b c : α) (l : List α) :
    transpose_shape .channelsFirst (b :: (l ++ [c])) = b :: c :: l := by
  have h : (l ++ [c]).reverse = c :: l.reverse := by simp
  simp [transpose_shape, h]

/-! ## Claim theorems -/

/-- C1: every transposed convolution (`Conv2DTranspose`, `Conv3DTranspose`)
with a known input channel dimension allocates a kernel of shape
`kernel_size + (filters, input_channels)`, the in/out channel positions
swapped relative to plain convolution, whose `build` allocates
`kernel_size + (input_channels, filters)`. -/
theorem C1_transpose_kernel_shape_swapped :
    (∀ (k1 k2 f : Int) (ub : Bool) (fmt : DataFormat) (input : KShape) (c : Int),
      input.length = 4 → channel_dim fmt input = some (some c) →
      Conv2DTranspose_build (k1, k2) f ub fmt input
        = .ok { weights := ("kernel", [k1, k2, f, c]) ::
                  (if ub then [("bias", [f])] else []), built := true })
    ∧ (∀ (k1 k2 k3 f : Int) (ub : Bool) (fmt : DataFormat) (input : KShape) (c : Int),
      input.length = 5 → channel_dim fmt input = some (some c) →
      Conv3DTranspose_build (k1, k2, k3) f ub fmt input
        = .ok { weights := ("kernel", [k1, k2, k3, f, c]) ::
                  (if ub then [("bias", [f])] else []), built := true })
    ∧ (∀ (ks : List Int) (f : Int) (ub : Bool) (fmt : DataFormat) (input : KShape) (c : Int),
      channel_dim fmt input = some (some c) →
      Conv_build ks f ub fmt input
        = .ok { weights := ("kernel", ks ++ [c, f]) ::
                  (if ub then [("bias", [f])] else []), built := true }) := by
  refine ⟨?_, ?_, ?_⟩
  · intro k1 k2 f ub fmt input c hlen hch
    simp [Conv2DTranspose_build, hlen, hch]
  · intro k1 k2 k3 f ub fmt input c hlen hch
    simp [Conv3DTranspose_build, hlen, hch]
  · intro ks f ub fmt input c hch
    simp [Conv_build, hch]

/-- Witness for C1 at a concrete input. -/
theorem C1_witness :
    Conv2DTranspose_build (3, 3) 16 true .channelsLast [none, some 5, some 5, some 2]
      = .ok { weights := [("kernel", [3, 3, 16, 2]), ("bias", [16])], built := true } := by
  have h := C1_transpose_kernel_shape_swapped.1 3 3 16 true .channelsLast
    [none, some 5, some 5, some 2] 2 rfl rfl
  simpa using h

/-- C3: the literal plain Conv2D example — input `(None, 28, 28, 3)`,
channels-last, kernel (3,3), strides (1,1), VALID padding, 16 filters —
builds kernel `(3,3,3,16)` and bias `(16,)` and computes output shape
`(None, 26, 26, 16)`. -/
theorem C3_conv2d_literal_example :
    Conv_build [3, 3] 16 true .channelsLast [none, some 28, some 28, some 3]
      = .ok { weights := [("kernel", [3, 3, 3, 16]), ("bias", [16])], built := true }
    ∧ Conv_compute_output_shape [3, 3] [1, 1] [1, 1] .valid 16 .channelsLast
        [none, some 28, some 28, some 3]
      = [none, some 26, some 26, some 16] :=
  ⟨rfl, by decide⟩

/-- C4: for every transposed convolution, an explicit `output_padding`
with some `output_padding[i] >= strides[i]` makes the constructor's
validation raise; the validation is skipped entirely when
`output_padding` is `None`; and `compute_output_shape` applies the
inverse-length formula for every `output_padding`, violating or not,
without raising. -/
theorem C4_output_padding_checked_at_construction :
    (∀ strides : List Int, ConvTranspose_check_output_padding strides none = .ok ())
    ∧ (∀ strides op : List Int,
        exOk (ConvTranspose_check_output_padding strides (some op)) = false
          ↔ ∃ p ∈ strides.zip op, p.2 ≥ p.1)
    ∧ (∀ (k s : Int × Int) (pad : Padding) (op : Int × Int) (d : Int × Int)
        (f : Int) (b h w c : Dim),
        Conv2DTranspose_compute_output_shape k s pad (some op) d f .channelsLast [b, h, w, c]
          = [b, deconv_length h s.1 k.1 pad (some op.1) d.1,
             deconv_length w s.2 k.2 pad (some op.2) d.2, some f]) := by
  refine ⟨fun _ => rfl, ?_, ?_⟩
  · intro strides op
    have key : exOk (ConvTranspose_check_output_padding strides (some op)) = false
        ↔ (strides.zip op).any (fun p => decide (p.2 ≥ p.1)) = true := by
      unfold ConvTranspose_check_output_padding
      by_cases h : (strides.zip op).any (fun p => decide (p.2 ≥ p.1))
      · simp [h, exOk]
      · simp [h, exOk]
    rw [key, List.any_eq_true]
    simp
  · intro k s pad op d f b h w c
    rfl

/-- C6: `DepthwiseConv2D` with known input channel count `c` and depth
multiplier `m` allocates a depthwise kernel `(kh, kw, c, m)` and no
pointwise kernel or filters parameter (its `filters` attribute is
`None`), and the channel dimension of `compute_output_shape` equals
`c * m`. -/
theorem C6_depthwise_channel_arithmetic :
    (∀ (kh kw dm : Int) (ub : Bool) (fmt : DataFormat) (input : KShape) (c : Int),
      input.length = 4 →
      input.getD (match fmt with | .channelsFirst => 1 | .channelsLast => 3) none = some c →
      DepthwiseConv2D_build (kh, kw) dm ub fmt input
        = .ok { weights := ("depthwise_kernel", [kh, kw, c, dm]) ::
                  (if ub then [("bias", [c * dm])] else []), built := true })
    ∧ DepthwiseConv2D_filters = none
    ∧ (∀ (k s d : Int × Int) (pad : Padding) (dm : Int) (b r co : Dim) (c : Int),
        (DepthwiseConv2D_compute_output_shape k s d pad dm .channelsLast
          [b, r, co, some c]).getD 3 none = some (c * dm)
        ∧ (DepthwiseConv2D_compute_output_shape k s d pad dm .channelsFirst
          [b, some c, r, co]).getD 1 none = some (c * dm)) := by
  refine ⟨?_, rfl, ?_⟩
  · intro kh kw dm ub fmt input c hlen hch
    cases fmt <;> simp_all [DepthwiseConv2D_build]
  · intro k s d pad dm b r co c
    exact ⟨rfl, rfl⟩

/-- Witness for C6: three input channels and depth multiplier four give
a `(kh, kw, 3, 4)` depthwise kernel and twelve output channels. -/
theorem C6_witness :
    DepthwiseConv2D_build (5, 5) 4 true .channelsLast [none, some 8, some 8, some 3]
      = .ok { weights := [("depthwise_kernel", [5, 5, 3, 4]), ("bias", [12])],
              built := true }
    ∧ (DepthwiseConv2D_compute_output_shape (5, 5) (1, 1) (1, 1) .valid 4 .channelsLast
        [none, some 8, some 8, some 3]).getD 3 none = some 12 := by
  constructor
  · have h := C6_depthwise_channel_arithmetic.1 5 5 4 true .channelsLast
      [none, some 8, some 8, some 3] 3 rfl rfl
    simpa using h
  · have h := (C6_depthwise_channel_arithmetic.2.2 (5, 5) (1, 1) (1, 1) .valid 4
      none (some 8) (some 8) 3).1
    simpa using h

/-- C8: for the convolution family, a `None` channel dimension (or, for
transposed convolutions, a wrong input rank) makes `build` raise; in the
source the `raise` statements precede every `add_weight` call, which the
`Except` embedding reflects: an error carries no weight list and no
`built` flag, so the instance stays unbuilt with nothing allocated. -/
theorem C8_build_fails_before_allocation :
    (∀ (ks : List Int) (f : Int) (ub : Bool) (fmt : DataFormat) (input : KShape),
      channel_dim fmt input = some none →
      exOk (Conv_build ks f ub fmt input) = false)
    ∧ (∀ (k : Int × Int) (f : Int) (ub : Bool) (fmt : DataFormat) (input : KShape),
      input.length ≠ 4 →
      exOk (Conv2DTranspose_build k f ub fmt input) = false)
    ∧ (∀ (k : Int × Int) (f : Int) (ub : Bool) (fmt : DataFormat) (input : KShape),
      channel_dim fmt input = some none →
      exOk (Conv2DTranspose_build k f ub fmt input) = false)
    ∧ (∀ (k : Int × Int × Int) (f : Int) (ub : Bool) (fmt : DataFormat) (input : KShape),
      input.length ≠ 5 →
      exOk (Conv3DTranspose_build k f ub fmt input) = false)
    ∧ (∀ (k : Int × Int × Int) (f : Int) (ub : Bool) (fmt : DataFormat) (input : KShape),
      channel_dim fmt input = some none →
      exOk (Conv3DTranspose_build k f ub fmt input) = false) := by
  refine ⟨?_, ?_, ?_, ?_, ?_⟩
  · intro ks f ub fmt input h
    simp [Conv_build, h, exOk]
  · intro k f ub fmt input h
    simp [Conv2DTranspose_build, h, exOk]
  · intro k f ub fmt input h
    by_cases hlen : input.length = 4
    · simp [Conv2DTranspose_build, hlen, h, exOk]
    · simp [Conv2DTranspose_build, hlen, exOk]
  · intro k f ub fmt input h
    simp [Conv3DTranspose_build, h, exOk]
  · intro k f ub fmt input h
    by_cases hlen : input.length = 5
    · simp [Conv3DTranspose_build, hlen, h, exOk]
    · simp [Conv3DTranspose_build, hlen, exOk]

/-- Witness for C8 at concrete failing inputs. -/
theorem C8_witness :
    exOk (Conv_build [3, 3] 16 true .channelsLast [none, some 28, some 28, none]) = false
    ∧ exOk (Conv2DTranspose_build (3, 3) 16 true .channelsLast [none, some 28, some 28]) = false := by
  constructor
  · exact C8_build_fails_before_allocation.1 [3, 3] 16 true .channelsLast
      [none, some 28, some 28, none] rfl
  · exact C8_build_fails_before_allocation.2.1 (3, 3) 16 true .channelsLast
      [none, some 28, some 28] (by decide)

/-- C7: for UpSampling, ZeroPadding and Cropping, each `None` input
dimension stays `None` in the output regardless of the configured
amounts, and each known dimension is transformed exactly — multiplied by
its size factor, increased by the sum of its (before, after) padding
pair, or decreased by the sum of its (before, after) cropping pair.
The per-axis amount at position `i` comes from the canonical list
transposed into the data format, as in the source. -/
theorem C7_spatial_transform_exact_and_none_propagation :
    (∀ (size : List Int) (fmt : DataFormat) (input : KShape) (i : Nat) (f : Int) (d : Dim),
      (transpose_shape fmt ((1 : Int) :: (size ++ [1]))).get? i = some f →
      input.get? i = some d →
      (UpSampling_compute_output_shape size fmt input).get? i
        = some (d.map (fun v => v * f)))
    ∧ (∀ (padding : List (Int × Int)) (fmt : DataFormat) (input : KShape)
        (i : Nat) (p : Int × Int) (d : Dim),
      (transpose_shape fmt (((0, 0) : Int × Int) :: (padding ++ [(0, 0)]))).get? i = some p →
      input.get? i = some d →
      (ZeroPadding_compute_output_shape padding fmt input).get? i
        = some (d.map (fun v => v + (p.1 + p.2))))
    ∧ (∀ (cropping : List (Int × Int)) (fmt : DataFormat) (input : KShape)
        (i : Nat) (p : Int × Int) (d : Dim),
      (transpose_shape fmt (((0, 0) : Int × Int) :: (cropping ++ [(0, 0)]))).get? i = some p →
      input.get? i = some d →
      (Cropping_compute_output_shape cropping fmt input).get? i
        = some (d.map (fun v => v - (p.1 + p.2)))) := by
  refine ⟨?_, ?_, ?_⟩
  · intro size fmt input i f d hf hd
    exact zipWith_get?_eq _ _ _ _ _ _ hd hf
  · intro padding fmt input i p d hp hd
    exact zipWith_get?_eq _ _ _ _ _ _ hd hp
  · intro cropping fmt input i p d hp hd
    exact zipWith_get?_eq _ _ _ _ _ _ hd hp

/-- Witness for C7: an unknown dimension stays unknown under upsampling
and a known dimension is padded exactly. -/
theorem C7_witness :
    (UpSampling_compute_output_shape [2] .channelsLast [some 1, none, some 3]).get? 1
      = some none
    ∧ (ZeroPadding_compute_output_shape [(2, 3)] .channelsLast
        [some 1, some 4, some 3]).get? 1 = some (some 9) := by
  constructor
  · exact C7_spatial_transform_exact_and_none_propagation.1 [2] .channelsLast
      [some 1, none, some 3] 1 2 none rfl rfl
  · exact C7_spatial_transform_exact_and_none_propagation.2.1 [(2, 3)] .channelsLast
      [some 1, some 4, some 3] 1 (2, 3) (some 4) rfl rfl

/-- C2 counterexample: `_Cropping.compute_output_shape` contains no
check and no `raise` (it is a total function in this embedding because
the source method is pure arithmetic), so on the spec's own test —
ZeroPadding (2,2) then Cropping (5,5) on a spatial size of 4 — it
returns the value `-2` instead of raising a runtime shape error, while
construction indeed succeeds. -/
theorem C2_counterexample :
    Cropping2D_init (.seq [.tuple [5, 5], .tuple [5, 5]]) = .ok [(5, 5), (5, 5)]
    ∧ Cropping_compute_output_shape [(5, 5), (5, 5)] .channelsLast
        (ZeroPadding_compute_output_shape [(2, 2), (2, 2)] .channelsLast
          [some 1, some 4, some 4, some 3])
      = [some 1, some (-2), some (-2), some 3] :=
  ⟨rfl, by decide⟩

/-- C2 (amended): construction with excessive crop amounts succeeds, and
`compute_output_shape` never raises: it returns each known axis reduced
by the sum of its crop amounts — even when the result is negative — and
propagates unknown axes unchanged. -/
theorem C2_cropping_never_raises :
    (∀ (cropping : List (Int × Int)) (fmt : DataFormat) (input : KShape)
        (i : Nat) (p : Int × Int) (d : Dim),
      (transpose_shape fmt (((0, 0) : Int × Int) :: (cropping ++ [(0, 0)]))).get? i = some p →
      input.get? i = some d →
      (Cropping_compute_output_shape cropping fmt input).get? i
        = some (d.map (fun v => v - (p.1 + p.2))))
    ∧ (∀ a b c d : Int,
      Cropping2D_init (.seq [.tuple [a, b], .tuple [c, d]]) = .ok [(a, b), (c, d)]) := by
  constructor
  · intro cropping fmt input i p d hp hd
    exact zipWith_get?_eq _ _ _ _ _ _ hd hp
  · intro a b c d
    rfl

/-- Witness for C2: cropping by (5,5) on an axis of size 8 yields -2. -/
theorem C2_witness :
    (Cropping_compute_output_shape [(5, 5), (5, 5)] .channelsLast
      [some 1, some 8, some 8, some 3]).get? 1 = some (some (-2)) :=
  C2_cropping_never_raises.1 [(5, 5), (5, 5)] .channelsLast
    [some 1, some 8, some 8, some 3] 1 (5, 5) (some 8) rfl rfl

/-- C5: for plain convolution, upsampling and depthwise convolution,
`compute_output_shape` under channels-first on the permuted input equals
the channels-last result with its channel entry moved from last position
to position 1 (the layout permutation itself): layout only relabels axis
positions, never the computed magnitudes. -/
theorem C5_layout_symmetry :
    (∀ (kernel strides dilation : List Int) (padding : Padding) (filters : Int)
        (b c : Dim) (space : List Dim),
      Conv_compute_output_shape kernel strides dilation padding filters
          .channelsFirst (b :: c :: space)
        = transpose_shape .channelsFirst
            (Conv_compute_output_shape kernel strides dilation padding filters
              .channelsLast (b :: (space ++ [c]))))
    ∧ (∀ (size : List Int) (b c : Dim) (space : List Dim),
      space.length = size.length →
      UpSampling_compute_output_shape size .channelsFirst (b :: c :: space)
        = transpose_shape .channelsFirst
            (UpSampling_compute_output_shape size .channelsLast (b :: (space ++ [c]))))
    ∧ (∀ (k s d : Int × Int) (pad : Padding) (dm : Int) (b c s1 s2 : Dim),
      DepthwiseConv2D_compute_output_shape k s d pad dm .channelsFirst [b, c, s1, s2]
        = transpose_shape .channelsFirst
            (DepthwiseConv2D_compute_output_shape k s d pad dm
              .channelsLast [b, s1, s2, c])) := by
  refine ⟨?_, ?_, ?_⟩
  · intro kernel strides dilation padding filters b c space
    have h1 : Conv_compute_output_shape kernel strides dilation padding filters
        .channelsLast (b :: (space ++ [c]))
        = b :: (conv_new_space space kernel strides dilation padding ++ [some filters]) := by
      simp [Conv_compute_output_shape]
    have h2 : Conv_compute_output_shape kernel strides dilation padding filters
        .channelsFirst (b :: c :: space)
        = b :: some filters :: conv_new_space space kernel strides dilation padding := by
      simp [Conv_compute_output_shape]
    rw [h1, h2, transpose_shape_channelsFirst_concat]
  · intro size b c space hlen
    have hfac : transpose_shape .channelsFirst ((1 : Int) :: (size ++ [1]))
        = 1 :: 1 :: size := transpose_shape_channelsFirst_concat 1 1 size
    have hCL : UpSampling_compute_output_shape size .channelsLast (b :: (space ++ [c]))
        = (b.map (fun v => v * 1)) ::
            (List.zipWith (fun d s => d.map (fun v => v * s)) space size
              ++ [c.map (fun v => v * 1)]) := by
      simp only [UpSampling_compute_output_shape, transpose_shape, List.zipWith]
      rw [List.zipWith_append _ space [c] size [1] hlen]
      rfl
    have hCF : UpSampling_compute_output_shape size .channelsFirst (b :: c :: space)
        = (b.map (fun v => v * 1)) :: (c.map (fun v => v * 1)) ::
            List.zipWith (fun d s => d.map (fun v => v * s)) space size := by
      simp only [UpSampling_compute_output_shape, hfac, List.zipWith]
    rw [hCL, hCF, transpose_shape_channelsFirst_concat]
  · intro k s d pad dm b c s1 s2
    rfl

/-- Witness for C5 at a concrete configuration and input. -/
theorem C5_witness :
    UpSampling_compute_output_shape [2] .channelsFirst [none, some 3, some 4]
      = transpose_shape .channelsFirst
          (UpSampling_compute_output_shape [2] .channelsLast [none, some 4, some 3]) :=
  C5_layout_symmetry.2.1 [2] none (some 3) [some 4] rfl

/-- C10: `Flatten.compute_output_shape` raises exactly when some
non-batch dimension is `None` or `0` (the check is Python truthiness,
so a zero-sized dimension is also rejected), and otherwise returns the
batch dimension followed by the product of the non-batch dimensions. -/
theorem C10_flatten_truthiness :
    ∀ input : KShape,
      (exOk (Flatten_compute_output_shape input) = false
        ↔ ∃ d ∈ input.drop 1, d = none ∨ d = some 0)
      ∧ (∀ out, Flatten_compute_output_shape input = .ok out →
          out = input.take 1 ++ [some ((input.drop 1).filterMap id).prod]) := by
  intro input
  have hx : ∀ d : Dim, truthy d = false ↔ d = none ∨ d = some 0 := by
    intro d
    cases d with
    | none => simp [truthy]
    | some v => simp [truthy]
  constructor
  · by_cases h : (input.drop 1).all truthy
    · simp only [Flatten_compute_output_shape, if_pos h, exOk]
      rw [List.all_eq_true] at h
      constructor
      · intro hfalse; exact absurd hfalse (by simp)
      · rintro ⟨d, hd, hbad⟩
        exact absurd (h d hd) (by simp [(hx d).mpr hbad])
    · simp only [Flatten_compute_output_shape, if_neg h, exOk]
      constructor
      · intro _
        have h2 : ∃ d ∈ input.drop 1, truthy d = false := by
          by_contra hc
          push_neg at hc
          apply h
          rw [List.all_eq_true]
          intro d hd
          have hne := hc d hd
          revert hne
          cases truthy d <;> simp
        obtain ⟨d, hd, hf⟩ := h2
        exact ⟨d, hd, (hx d).mp hf⟩
      · intro _; trivial
  · intro out hout
    unfold Flatten_compute_output_shape at hout
    by_cases h : (input.drop 1).all truthy
    · rw [if_pos h] at hout
      injection hout with h2
      exact h2.symm
    · rw [if_neg h] at hout
      simp at hout

/-- Witness for C10: a zero-sized non-batch dimension is rejected. -/
theorem C10_witness :
    exOk (Flatten_compute_output_shape [none, some 0, some 5]) = false :=
  (C10_flatten_truthiness [none, some 0, some 5]).1.mpr
    ⟨some 0, by simp, Or.inr rfl⟩

theorem scan_dims_no_neg (l : List Int) : ∀ (i : Nat) (acc : Int) (u : Option Nat),
    (∀ d ∈ l, 0 ≤ d) → Reshape_scan_dims l i acc u = .ok (acc * l.prod, u) := by
  induction l with
  | nil => intro i acc u _; simp [Reshape_scan_dims]
  | cons d rest ih =>
    intro i acc u h
    have hd : ¬ d < 0 := not_lt.mpr (h d (List.mem_cons_self d rest))
    simp only [Reshape_scan_dims]
    rw [if_neg hd]
    rw [ih (i + 1) (acc * d) u (fun x hx => h x (List.mem_cons_of_mem d hx))]
    rw [List.prod_cons, mul_assoc]

theorem scan_dims_neg_after_unknown (l2 : List Int) :
    ∀ (e : Int) (l3 : List Int) (i : Nat) (acc : Int) (j : Nat),
    (∀ x ∈ l2, 0 ≤ x) → e < 0 →
    Reshape_scan_dims (l2 ++ e :: l3) i acc (some j)
      = .error "Can only specify one unknown dimension." := by
  induction l2 with
  | nil =>
    intro e l3 i acc j _ he
    simp only [List.nil_append, Reshape_scan_dims]
    rw [if_pos he]
  | cons x xs ih =>
    intro e l3 i acc j h he
    have hx : ¬ x < 0 := not_lt.mpr (h x (List.mem_cons_self x xs))
    simp only [List.cons_append, Reshape_scan_dims]
    rw [if_neg hx]
    exact ih e l3 (i + 1) (acc * x) j (fun y hy => h y (List.mem_cons_of_mem x hy)) he

theorem scan_dims_one_neg (l1 : List Int) : ∀ (d : Int) (l2 : List Int) (i : Nat) (acc : Int),
    (∀ x ∈ l1, 0 ≤ x) → (∀ x ∈ l2, 0 ≤ x) → d < 0 →
    Reshape_scan_dims (l1 ++ d :: l2) i acc none
      = .ok (acc * (l1.prod * l2.prod), some (i + l1.length)) := by
  induction l1 with
  | nil =>
    intro d l2 i acc _ h2 hd
    simp only [List.nil_append, Reshape_scan_dims]
    rw [if_pos hd]
    rw [scan_dims_no_neg l2 (i + 1) acc (some i) h2]
    simp
  | cons x xs ih =>
    intro d l2 i acc h1 h2 hd
    have hx : ¬ x < 0 := not_lt.mpr (h1 x (List.mem_cons_self x xs))
    simp only [List.cons_append, Reshape_scan_dims]
    rw [if_neg hx]
    have hrec := ih d l2 (i + 1) (acc * x) (fun y hy => h1 y (List.mem_cons_of_mem x hy)) h2 hd
    have h3 : acc * x * (xs.prod * l2.prod) = acc * ((x :: xs).prod * l2.prod) := by
      rw [List.prod_cons]; ring
    have h4 : i + 1 + xs.length = i + (x :: xs).length := by
      simp [List.length_cons]; omega
    exact hrec.trans (by rw [h3, h4])

theorem scan_dims_two_neg (l1 : List Int) :
    ∀ (d : Int) (l2 : List Int) (e : Int) (l3 : List Int) (i : Nat) (acc : Int),
    (∀ x ∈ l1, 0 ≤ x) → (∀ x ∈ l2, 0 ≤ x) → d < 0 → e < 0 →
    Reshape_scan_dims (l1 ++ d :: (l2 ++ e :: l3)) i acc none
      = .error "Can only specify one unknown dimension." := by
  induction l1 with
  | nil =>
    intro d l2 e l3 i acc _ h2 hd he
    simp only [List.nil_append, Reshape_scan_dims]
    rw [if_pos hd]
    exact scan_dims_neg_after_unknown l2 e l3 (i + 1) acc i h2 he
  | cons x xs ih =>
    intro d l2 e l3 i acc h1 h2 hd he
    have hx : ¬ x < 0 := not_lt.mpr (h1 x (List.mem_cons_self x xs))
    simp only [List.cons_append, Reshape_scan_dims]
    rw [if_neg hx]
    exact ih d l2 e l3 (i + 1) (acc * x) (fun y hy => h1 y (List.mem_cons_of_mem x hy)) h2 hd he

theorem set_append_length {α : Type} (l1 : List α) (d q : α) (l2 : List α) :
    (l1 ++ d :: l2).set l1.length q = l1 ++ q :: l2 := by
  induction l1 with
  | nil => rfl
  | cons x xs ih => simp only [List.cons_append, List.length_cons, List.set_cons_succ, ih]

theorem map_replace_id (l : List Int) (q : Int) (h : ∀ v ∈ l, ¬ v = -1) :
    l.map (fun v => if v = -1 then q else v) = l := by
  induction l with
  | nil => rfl
  | cons x xs ih =>
    simp only [List.map_cons]
    rw [if_neg (h x (List.mem_cons_self x xs)),
      ih (fun v hv => h v (List.mem_cons_of_mem x hv))]

theorem Reshape_cos_known (b : Dim) (dims target : List Int) :
    Reshape_compute_output_shape target (b :: dims.map some)
      = (Reshape_fix_unknown_dimension dims target).map (fun fixed => b :: fixed.map some) := by
  unfold Reshape_compute_output_shape
  rw [if_neg (by simp)]
  rw [show ((b :: dims.map some : KShape).drop 1) = dims.map some from rfl]
  rw [show ((dims.map some : KShape).filterMap id) = dims from by simp]
  cases hfix : Reshape_fix_unknown_dimension dims target with
  | error e => rfl
  | ok v => rfl

/-- C9 (amended): for a fully known non-batch input shape,
`Reshape.compute_output_shape` raises exactly when the target shape has
more than one `-1`, or exactly one `-1` and the product of the remaining
entries is zero or does not divide the input element count, or no `-1`
and the two element counts differ; otherwise it returns the target with
the single `-1` replaced by the quotient of the input element count by
the product of the other target dimensions, so the product of the
returned non-batch dimensions equals the input element count. -/
theorem C9_reshape_fix_characterization :
    ∀ (b : Dim) (dims target : List Int),
      (∀ d ∈ dims, 0 ≤ d) →
      (∀ d ∈ target, d = -1 ∨ 0 ≤ d) →
      ((exOk (Reshape_compute_output_shape target (b :: dims.map some)) = false
        ↔ (1 < (target.filter (fun d => decide (d = -1))).length
           ∨ ((target.filter (fun d => decide (d = -1))).length = 1
              ∧ ((target.filter (fun d => decide (0 ≤ d))).prod = 0
                 ∨ dims.prod % (target.filter (fun d => decide (0 ≤ d))).prod ≠ 0))
           ∨ ((target.filter (fun d => decide (d = -1))).length = 0
              ∧ dims.prod ≠ (target.filter (fun d => decide (0 ≤ d))).prod)))
       ∧ (∀ out, Reshape_compute_output_shape target (b :: dims.map some) = .ok out →
           out = b :: (target.map (fun v => if v = -1
               then dims.prod / (target.filter (fun d => decide (0 ≤ d))).prod
               else v)).map some
           ∧ (target.map (fun v => if v = -1
               then dims.prod / (target.filter (fun d => decide (0 ≤ d))).prod
               else v)).prod = dims.prod)) := by
  intro b dims target hdims htgt
  rcases hfil : target.filter (fun d => decide (d = -1)) with _ | ⟨x, _ | ⟨y, rest⟩⟩
  · -- no -1 entry in the target
    have hno : ∀ d ∈ target, ¬ d = -1 := by
      intro d hd
      have h2 := List.filter_eq_nil_iff.mp hfil d hd
      simpa using h2
    have hnn : ∀ d ∈ target, 0 ≤ d := fun d hd => (htgt d hd).resolve_left (hno d hd)
    have hself : target.filter (fun d => decide (0 ≤ d)) = target :=
      List.filter_eq_self.mpr (fun d hd => by simpa using hnn d hd)
    have hscan := scan_dims_no_neg target 0 1 none hnn
    have hfix : Reshape_fix_unknown_dimension dims target
        = if dims.prod != target.prod
          then .error "total size of new array must be unchanged"
          else .ok target := by
      unfold Reshape_fix_unknown_dimension
      rw [hscan]
      show (if dims.prod != 1 * target.prod
            then Except.error "total size of new array must be unchanged"
            else Except.ok target) = _
      rw [one_mul]
    refine ⟨?_, ?_⟩
    · rw [Reshape_cos_known, hfix, hself]
      by_cases hc : dims.prod = target.prod
      · rw [if_neg (by simp [hc])]
        simp [exOk, Except.map, hc]
      · rw [if_pos (by simp [hc])]
        simp [exOk, Except.map, hc]
    · intro out hout
      rw [Reshape_cos_known, hfix] at hout
      by_cases hc : dims.prod = target.prod
      · rw [if_neg (by simp [hc])] at hout
        simp only [Except.map, Except.ok.injEq] at hout
        have hmap := map_replace_id target
          (dims.prod / (target.filter (fun d => decide (0 ≤ d))).prod) hno
        refine ⟨?_, ?_⟩
        · rw [hmap]; exact hout.symm
        · rw [hmap]; exact hc.symm
      · rw [if_pos (by simp [hc])] at hout
        exact absurd hout (by simp [Except.map])
  · -- exactly one -1 entry in the target
    obtain ⟨l1, l2, heq, hl1, hx, hl2f⟩ := List.filter_eq_cons_iff.mp hfil
    have hx2 : x = -1 := by simpa using hx
    subst hx2
    subst heq
    have hl1n : ∀ v ∈ l1, ¬ v = -1 := fun v hv => by simpa using hl1 v hv
    have hl2n : ∀ v ∈ l2, ¬ v = -1 := by
      intro v hv
      have h2 := List.filter_eq_nil_iff.mp hl2f v hv
      simpa using h2
    have hnn1 : ∀ v ∈ l1, 0 ≤ v := fun v hv =>
      (htgt v (List.mem_append_left _ hv)).resolve_left (hl1n v hv)
    have hnn2 : ∀ v ∈ l2, 0 ≤ v := fun v hv =>
      (htgt v (List.mem_append_right _ (List.mem_cons_of_mem _ hv))).resolve_left (hl2n v hv)
    have hknown : (l1 ++ (-1) :: l2).filter (fun d => decide (0 ≤ d)) = l1 ++ l2 := by
      rw [List.filter_append]
      rw [List.filter_eq_self.mpr (fun d hd => by simpa using hnn1 d hd)]
      have h2 : List.filter (fun d => decide (0 ≤ d)) ((-1) :: l2)
          = List.filter (fun d => decide (0 ≤ d)) l2 := by
        simp
      rw [h2, List.filter_eq_self.mpr (fun d hd => by simpa using hnn2 d hd)]
    have hscan := scan_dims_one_neg l1 (-1) l2 0 1 hnn1 hnn2 (by decide)
    have hfix : Reshape_fix_unknown_dimension dims (l1 ++ (-1) :: l2)
        = if (l1.prod * l2.prod) == 0 || dims.prod % (l1.prod * l2.prod) != 0
          then .error "total size of new array must be unchanged"
          else .ok ((l1 ++ (-1) :: l2).set l1.length
            (dims.prod / (l1.prod * l2.prod))) := by
      unfold Reshape_fix_unknown_dimension
      rw [hscan]
      show (if (1 * (l1.prod * l2.prod)) == 0
              || dims.prod % (1 * (l1.prod * l2.prod)) != 0
            then Except.error "total size of new array must be unchanged"
            else Except.ok ((l1 ++ (-1) :: l2).set (0 + l1.length)
              (dims.prod / (1 * (l1.prod * l2.prod))))) = _
      simp only [one_mul, Nat.zero_add]
    refine ⟨?_, ?_⟩
    · rw [Reshape_cos_known, hfix, hknown]
      by_cases hc : ((l1.prod * l2.prod) == 0 || dims.prod % (l1.prod * l2.prod) != 0) = true
      · rw [if_pos hc]
        simp only [bne_iff_ne, beq_iff_eq, Bool.or_eq_true, ne_eq] at hc
        constructor
        · intro _
          refine Or.inr (Or.inl ⟨rfl, ?_⟩)
          rw [List.prod_append]
          exact hc
        · intro _
          rfl
      · rw [if_neg hc]
        simp only [bne_iff_ne, beq_iff_eq, Bool.or_eq_true, ne_eq, not_or, not_not] at hc
        constructor
        · intro hfalse
          exact absurd hfalse (by simp [Except.map, exOk])
        · rintro (h1 | ⟨_, h2⟩ | ⟨h3, _⟩)
          · exact absurd h1 (by decide)
          · rw [List.prod_append] at h2
            rcases h2 with h2a | h2b
            · exact absurd h2a hc.1
            · exact absurd hc.2 h2b
          · exact absurd h3 (by decide)
    · intro out hout
      rw [Reshape_cos_known, hfix] at hout
      by_cases hc : ((l1.prod * l2.prod) == 0 || dims.prod % (l1.prod * l2.prod) != 0) = true
      · rw [if_pos hc] at hout
        exact absurd hout (by simp [Except.map])
      · rw [if_neg hc] at hout
        simp only [bne_iff_ne, beq_iff_eq, Bool.or_eq_true, ne_eq, not_or, not_not] at hc
        obtain ⟨hkne, hmod⟩ := hc
        have hdvd : (l1.prod * l2.prod) ∣ dims.prod := Int.dvd_of_emod_eq_zero hmod
        have hqk : dims.prod / (l1.prod * l2.prod) * (l1.prod * l2.prod) = dims.prod :=
          Int.ediv_mul_cancel hdvd
        rw [set_append_length l1 (-1) (dims.prod / (l1.prod * l2.prod)) l2] at hout
        simp only [Except.map, Except.ok.injEq] at hout
        have hmap : (l1 ++ (-1) :: l2).map (fun v => if v = -1
              then dims.prod / ((l1 ++ (-1) :: l2).filter (fun d => decide (0 ≤ d))).prod
              else v) = l1 ++ (dims.prod / (l1.prod * l2.prod)) :: l2 := by
          rw [hknown, List.prod_append]
          rw [List.map_append, List.map_cons]
          rw [map_replace_id l1 _ hl1n, map_replace_id l2 _ hl2n]
          rw [if_pos rfl]
        refine ⟨?_, ?_⟩
        · rw [hmap]; exact hout.symm
        · rw [hmap]
          rw [List.prod_append, List.prod_cons]
          have h3 : l1.prod * (dims.prod / (l1.prod * l2.prod) * l2.prod)
              = dims.prod / (l1.prod * l2.prod) * (l1.prod * l2.prod) := by ring
          rw [h3, hqk]
  · -- at least two -1 entries in the target
    obtain ⟨l1, l2, heq, hl1, hx, hl2f⟩ := List.filter_eq_cons_iff.mp hfil
    have hx2 : x = -1 := by simpa using hx
    obtain ⟨l2a, l2b, heq2, hl2a, hy, hrest⟩ := List.filter_eq_cons_iff.mp hl2f
    have hy2 : y = -1 := by simpa using hy
    subst hx2
    subst hy2
    subst heq2
    subst heq
    have hl1n : ∀ v ∈ l1, ¬ v = -1 := fun v hv => by simpa using hl1 v hv
    have hl2an : ∀ v ∈ l2a, ¬ v = -1 := fun v hv => by simpa using hl2a v hv
    have hnn1 : ∀ v ∈ l1, 0 ≤ v := fun v hv =>
      (htgt v (List.mem_append_left _ hv)).resolve_left (hl1n v hv)
    have hnn2a : ∀ v ∈ l2a, 0 ≤ v := fun v hv =>
      (htgt v (List.mem_append_right _
        (List.mem_cons_of_mem _ (List.mem_append_left _ hv)))).resolve_left (hl2an v hv)
    have hscan := scan_dims_two_neg l1 (-1) l2a (-1) l2b 0 1 hnn1 hnn2a
      (by decide) (by decide)
    have hfix : Reshape_fix_unknown_dimension dims (l1 ++ (-1) :: (l2a ++ (-1) :: l2b))
        = .error "Can only specify one unknown dimension." := by
      unfold Reshape_fix_unknown_dimension
      rw [hscan]
      rfl
    refine ⟨?_, ?_⟩
    · rw [Reshape_cos_known, hfix]
      constructor
      · intro _
        exact Or.inl (by simp only [List.length_cons]; omega)
      · intro _
        rfl
    · intro out hout
      rw [Reshape_cos_known, hfix] at hout
      exact absurd hout (by simp [Except.map])

/-- Witness for C9 at a concrete input: two `-1` entries are rejected. -/
theorem C9_witness :
    exOk (Reshape_compute_output_shape [-1, -1] (none :: ([6] : List Int).map some)) = false :=
  (C9_reshape_fix_characterization none [6] [-1, -1] (by decide) (by decide)).1.mpr
    (Or.inl (by decide))

/-- C9 counterexample: with input non-batch dimensions `[0]` (all known)
and target `[0, -1]` — exactly one `-1`, and the element counts can
match (setting the `-1` to any value gives product `0 = 0`) — the code
nevertheless raises, because its divisibility test uses the product of
the remaining target entries, which is zero here. -/
theorem C9_counterexample :
    Reshape_compute_output_shape [0, -1] (none :: ([0] : List Int).map some)
      = .error "total size of new array must be unchanged"
    ∧ (([0, -1] : List Int).filter (fun d => decide (d = -1))).length = 1
    ∧ ∃ v : Int, 0 ≤ v ∧ ([0, v] : List Int).prod = ([0] : List Int).prod := by
  refine ⟨rfl, rfl, ⟨0, le_refl 0, rfl⟩⟩
